import Mathlib

/-!
Verification development for the recall-trading-agent repository.

The definitions below are shallow embeddings of the Python sources:
  * `src/portfolio_manager.py` (PortfolioManager) — over `ℚ`;
  * `src/trading_strategy.py` (MomentumStrategy, MeanReversionStrategy,
    MultiStrategyManager) — generic over a linear ordered field, with the
    mean-reversion analyzer instantiated at `ℝ` because it takes a square
    root (`np.std`);
  * `src/market_data.py` (MarketDataProvider) and
    `src/trading_client.py` (RecallTradingClient.get_token_price).

Python `float` arithmetic is idealized as exact rational/real arithmetic.
Python dicts are modelled as association lists in insertion order.
Numeric interpolations inside Python f-string log/reason messages (for
example the `{recent_return:.2%}` part of a reason) are not modelled; no
verified property depends on those digits, only on the literal prefixes.
-/

namespace RecallAgent

/-- `Token` dataclass of `src/trading_client.py`. -/
structure Token where
  address : String
  symbol : String
  chain : String
  decimals : ℕ
deriving DecidableEq

/-- `Balance` dataclass of `src/trading_client.py`. -/
structure Balance where
  token : Token
  amount : ℚ
  usd_value : ℚ
deriving DecidableEq

/-- `PortfolioTarget` dataclass of `src/portfolio_manager.py`. -/
structure PortfolioTarget where
  symbol : String
  target_allocation : ℚ
  current_allocation : ℚ
  current_value : ℚ
  drift : ℚ
deriving DecidableEq

/-- One entry of the `tokens` array returned by the portfolio endpoint,
as read by `PortfolioManager._process_portfolio_data` (`symbol`, `chain`
and `value` fields, with their Python `.get` defaults already applied). -/
structure PortfolioTokenEntry where
  symbol : String
  chain : String
  value : ℚ
deriving DecidableEq

/-- The response of `trading_client.get_portfolio()` as consumed by
`PortfolioManager.get_portfolio_status`: the `totalValue` field and the
`tokens` array. -/
structure PortfolioResp where
  totalValue : ℚ
  tokens : List PortfolioTokenEntry
deriving DecidableEq

/-- The configuration slice of `PortfolioManager` loaded in `__init__`
from `config/portfolio_config.json`: `target_allocations` (a dict, kept
in insertion order), `rebalance_threshold`, `min_trade_amount` and
`trading_pairs` (chain ↦ (symbol ↦ address)). -/
structure RebalanceConfig where
  targetAllocations : List (String × ℚ)
  rebalanceThreshold : ℚ
  minTradeAmount : ℚ
  tradingPairs : List (String × List (String × String))
deriving DecidableEq

/-- Python `dict.get(key)` on a dict modelled as an association list. -/
def assocLookup {α : Type} (xs : List (String × α)) (k : String) : Option α :=
  (xs.find? (fun p => p.1 = k)).map (·.2)

/-- `PortfolioManager._get_token_chain`: iterate `trading_pairs` in order
and return the first chain whose token map contains the symbol. -/
def getTokenChain (cfg : RebalanceConfig) (symbol : String) : Option String :=
  (cfg.tradingPairs.find? (fun ct => (ct.2.find? (fun sa => sa.1 = symbol)).isSome)).map (·.1)

/-- The status-assembly loop of `PortfolioManager.get_portfolio_status`
(lines 64–80): for each configured `(symbol, target_allocation)` take the
matching balance's `usd_value` (0 if absent), divide by `total_value`
only when `total_value > 0` (otherwise allocation 0), and record drift. -/
def getPortfolioStatusCore (targets : List (String × ℚ)) (balances : List Balance)
    (total : ℚ) : List PortfolioTarget :=
  targets.map (fun st =>
    let cv : ℚ := ((balances.find? (fun b => b.token.symbol = st.1)).map (·.usd_value)).getD 0
    let ca : ℚ := if total > 0 then cv / total else 0
    { symbol := st.1, target_allocation := st.2, current_allocation := ca,
      current_value := cv, drift := ca - st.2 })

/-- Chain-name mapping of `_process_portfolio_data`:
`'evm' -> 'ethereum'`, `'svm' -> 'solana'`, anything else unchanged. -/
def mapChain (c : String) : String :=
  if c = "evm" then "ethereum" else if c = "svm" then "solana" else c

/-- Insert-or-add for the `token_values` dict of `_process_portfolio_data`. -/
def addTokenValue (tv : List (String × ℚ)) (sym : String) (v : ℚ) : List (String × ℚ) :=
  if (tv.find? (fun p => p.1 = sym)).isSome then
    tv.map (fun p => if p.1 = sym then (p.1, p.2 + v) else p)
  else tv ++ [(sym, v)]

/-- The filtering/summing loop of `_process_portfolio_data` (lines 94–111):
keep only tokens whose symbol appears in `trading_pairs` and whose mapped
chain is configured, accumulate `token_values` per symbol and the running
`total_value`. -/
def processTokenValues (cfg : RebalanceConfig) (tokens : List PortfolioTokenEntry) :
    List (String × ℚ) × ℚ :=
  let configuredChains := cfg.tradingPairs.map (·.1)
  let configuredTokens := (cfg.tradingPairs.map (fun ct => ct.2.map (·.1))).flatten
  tokens.foldl (fun acc tok =>
    if tok.symbol ∈ configuredTokens ∧ mapChain tok.chain ∈ configuredChains then
      (addTokenValue acc.1 tok.symbol tok.value, acc.2 + tok.value)
    else acc) ([], 0)

/-- `PortfolioManager._process_portfolio_data`: compute the per-symbol
values and total as above, then build a `PortfolioTarget` per configured
symbol, guarding the division by `total_value > 0`. -/
def processPortfolioData (cfg : RebalanceConfig) (tokens : List PortfolioTokenEntry) :
    List PortfolioTarget :=
  let tv := processTokenValues cfg tokens
  cfg.targetAllocations.map (fun st =>
    let cv : ℚ := (assocLookup tv.1 st.1).getD 0
    let ca : ℚ := if tv.2 > 0 then cv / tv.2 else 0
    { symbol := st.1, target_allocation := st.2, current_allocation := ca,
      current_value := cv, drift := ca - st.2 })

/-- `PortfolioManager._calculate_portfolio_value_from_balances` (fallback
valuation): stablecoins at $1, SOL at $150, WETH/ETH at $3500, everything
else ignored. -/
def calcValueFromBalances (balances : List Balance) : ℚ :=
  balances.foldl (fun acc b =>
    if b.token.symbol = "USDC" ∨ b.token.symbol = "USDbC" then acc + b.amount
    else if b.token.symbol = "SOL" then acc + b.amount * 150
    else if b.token.symbol = "WETH" ∨ b.token.symbol = "ETH" then acc + b.amount * 3500
    else acc) 0

/-- The hard-coded demonstration balances substituted by
`get_portfolio_status` when an API call raises (lines 57–61). -/
def mockBalances : List Balance :=
  [ { token := { address := "0xA0b86991c6218b36c1d19D4a2e9Eb0cE3606eB48", symbol := "USDC",
                 chain := "ethereum", decimals := 6 }, amount := 1000, usd_value := 1000 },
    { token := { address := "0xC02aaA39b223FE8D0A0e5C4F27eAD9083C756Cc2", symbol := "WETH",
                 chain := "ethereum", decimals := 18 }, amount := 1/2, usd_value := 2000 },
    { token := { address := "So11111111111111111111111111111111111111112", symbol := "SOL",
                 chain := "solana", decimals := 9 }, amount := 10, usd_value := 500 } ]

/-- `PortfolioManager.get_portfolio_status`.  The two blocking API calls
are passed in as data: `pr = none` models `get_portfolio()` raising,
`br = none` models `get_balances()` raising (either exception lands in
the `except` branch, which substitutes `mockBalances`).  When the
portfolio endpoint reports `totalValue > 0` the portfolio data is used;
otherwise the balances are valued by `calcValueFromBalances`. -/
def getPortfolioStatus (cfg : RebalanceConfig) (pr : Option PortfolioResp)
    (br : Option (List Balance)) : List PortfolioTarget :=
  match pr with
  | some p =>
    if p.totalValue > 0 then processPortfolioData cfg p.tokens
    else
      match br with
      | some bs => getPortfolioStatusCore cfg.targetAllocations bs (calcValueFromBalances bs)
      | none => getPortfolioStatusCore cfg.targetAllocations mockBalances
          ((mockBalances.map (·.usd_value)).sum)
  | none => getPortfolioStatusCore cfg.targetAllocations mockBalances
      ((mockBalances.map (·.usd_value)).sum)

/-- The classification loop of `calculate_rebalance_trades` (lines
150–161): assets with `|drift| > rebalance_threshold` become
under-allocated (`value_diff > min_trade_amount`) or over-allocated
(`value_diff < -min_trade_amount`), in portfolio-status order.  Returns
`(over_allocated, under_allocated)` with their USD amounts. -/
def classifyStep (cfg : RebalanceConfig) (total : ℚ)
    (ou : List (String × ℚ) × List (String × ℚ)) (t : PortfolioTarget) :
    List (String × ℚ) × List (String × ℚ) :=
  -- one loop iteration; `ou` is the pair (over_allocated, under_allocated)
  if |t.drift| > cfg.rebalanceThreshold then
    let valueDiff := t.target_allocation * total - t.current_value
    if valueDiff > cfg.minTradeAmount then (ou.1, ou.2 ++ [(t.symbol, valueDiff)])
    else if valueDiff < -cfg.minTradeAmount then (ou.1 ++ [(t.symbol, |valueDiff|)], ou.2)
    else ou
  else ou

def classifyAssets (cfg : RebalanceConfig) (status : List PortfolioTarget) :
    List (String × ℚ) × List (String × ℚ) :=
  let total := (status.map (·.current_value)).sum
  status.foldl (classifyStep cfg total) ([], [])

/-- One iteration of the inner `for under_symbol, under_amount in
under_allocated` loop of `calculate_rebalance_trades` (lines 165–179).
The state carries the accumulated trades and the current `over_amount`.
Note the Python source also executes `under_amount -= trade_amount`
after appending a trade, but `under_amount` is a loop variable that the
next inner iteration rebinds from the unmodified `under_allocated` list,
so that assignment has no effect and is omitted here; `over_amount` is
rebound only by the outer loop, so its decrement does persist across the
inner loop. -/
def innerStep (minTrade : ℚ) (chainOf : String → Option String) (overSym : String)
    (st : List (String × String × ℚ) × ℚ) (under : String × ℚ) :
    List (String × String × ℚ) × ℚ :=
  if st.2 > 0 ∧ under.2 > 0 then
    if chainOf overSym = chainOf under.1 then
      let tradeAmount := min st.2 under.2
      if tradeAmount ≥ minTrade then
        (st.1 ++ [(overSym, under.1, tradeAmount)], st.2 - tradeAmount)
      else st
    else st
  else st

/-- One iteration of the outer `for over_symbol, over_amount in
over_allocated` loop: run the whole inner loop with `over_amount` as the
starting remaining amount, keeping only the accumulated trades. -/
def outerStep (minTrade : ℚ) (chainOf : String → Option String)
    (unders : List (String × ℚ)) (trades : List (String × String × ℚ))
    (over : String × ℚ) : List (String × String × ℚ) :=
  (unders.foldl (innerStep minTrade chainOf over.1) (trades, over.2)).1

/-- The greedy pairing of `calculate_rebalance_trades` (lines 163–181). -/
def pairTrades (minTrade : ℚ) (chainOf : String → Option String)
    (overs unders : List (String × ℚ)) : List (String × String × ℚ) :=
  overs.foldl (outerStep minTrade chainOf unders) []

/-- `PortfolioManager.calculate_rebalance_trades`, parameterized by the
portfolio status it fetches (the Python method starts by calling
`get_portfolio_status()`). -/
def calculateRebalanceTrades (cfg : RebalanceConfig) (status : List PortfolioTarget) :
    List (String × String × ℚ) :=
  let ou := classifyAssets cfg status
  pairTrades cfg.minTradeAmount (getTokenChain cfg) ou.1 ou.2

/-- The per-trade price guard and sizing step of
`PortfolioManager.execute_rebalance` (lines 210–218): a trade whose
source-asset price is absent or non-positive is skipped (`none`);
otherwise the USD amount is converted to asset quantity, which is used
only when it is at least `min_trade_amount / from_price`. -/
def sizeRebalanceTrade (minTrade : ℚ) (fromPrice : Option ℚ) (usdAmount : ℚ) : Option ℚ :=
  match fromPrice with
  | none => none
  | some p =>
    if p ≤ 0 then none
    else
      let amount := usdAmount / p
      if amount ≥ minTrade / p then some amount else none

/-! ## Trading strategies (`src/trading_strategy.py`)

The strategy code is generic over a linear ordered field `R`, standing
for exact arithmetic on the Python floats; instantiating `R := ℝ` gives
the idealized semantics and `R := ℚ` lets concrete runs be evaluated by
`decide`.  The mean-reversion analyzer is fixed at `ℝ` because `np.std`
takes a square root. -/

/-- `TokenInfo` dataclass of `src/token_config.py`. -/
structure TokenInfo where
  symbol : String
  address : String
  chain : String
  decimals : ℕ
  category : String
  enabled : Bool
  volatilityExpected : String
deriving DecidableEq

/-- `Signal` dataclass of `src/trading_strategy.py`.  The source comments
the `strength` field with `# 0-1`. -/
structure Signal (R : Type) where
  action : String
  symbol : String
  strength : R
  reason : String
  timestamp : ℚ
deriving DecidableEq

/-- One entry of a strategy's `price_history[symbol_key]` list:
a `{'price': ..., 'timestamp': ...}` dict. -/
structure PriceEntry (R : Type) where
  price : R
  timestamp : ℚ
deriving DecidableEq

/-- `TokenInfo.get_momentum_threshold`:
`thresholds.get(category, thresholds.get('default', 0.05))`. -/
def getMomentumThreshold {R : Type} [LinearOrderedField R]
    (thresholds : List (String × R)) (category : String) : R :=
  ((assocLookup thresholds category).orElse (fun _ => assocLookup thresholds "default")).getD (5/100)

/-- `TokenInfo.get_z_score_threshold`:
`thresholds.get(category, thresholds.get('default', 2.0))`. -/
def getZScoreThreshold (thresholds : List (String × ℝ)) (category : String) : ℝ :=
  ((assocLookup thresholds category).orElse (fun _ => assocLookup thresholds "default")).getD 2

/-- `TokenInfo.get_volatility_multiplier`:
`multipliers.get(volatility_expected, 1.0)`. -/
def getVolatilityMultiplier {R : Type} [LinearOrderedField R]
    (multipliers : List (String × R)) (vol : String) : R :=
  (assocLookup multipliers vol).getD 1

/-- The prune-on-append step shared by both strategies: keep only the
entries with `timestamp > now - lookback_hours * 3600`. -/
def pruneHistory {R : Type} (lookbackHours now : ℚ) (hist : List (PriceEntry R)) :
    List (PriceEntry R) :=
  hist.filter (fun p => p.timestamp > now - lookbackHours * 3600)

/-- `MomentumStrategy._analyze_momentum`.  Inputs that the Python method
reads from its environment are passed as data: the current price from
`trading_client.get_token_price` (absent on failure), the token's prior
`price_history` list, and `time.time()` as `now`.  The numeric parts of
the reason f-strings are not modelled (see the file header). -/
def analyzeMomentum {R : Type} [LinearOrderedField R]
    (thresholds multipliers : List (String × R)) (lookbackHours : ℚ) (token : TokenInfo)
    (priorHistory : List (PriceEntry R)) (currentPrice : Option R) (now : ℚ) :
    Option (Signal R) :=
  match currentPrice with
  | none => none
  | some cp =>
    if cp ≤ 0 then none
    else
      let adjustedThreshold : R :=
        getMomentumThreshold thresholds token.category *
          getVolatilityMultiplier multipliers token.volatilityExpected
      let hist := pruneHistory lookbackHours now (priorHistory ++ [⟨cp, now⟩])
      if hist.length < 2 then none
      else
        let prices := hist.map (·.price)
        let recentReturn : R := (prices.getLastD 0 - prices.headD 0) / prices.headD 0
        if recentReturn > adjustedThreshold then
          some { action := "buy", symbol := token.symbol,
                 strength := min (|recentReturn| / adjustedThreshold) 1,
                 reason := "Positive momentum", timestamp := now }
        else if recentReturn < -adjustedThreshold then
          some { action := "sell", symbol := token.symbol,
                 strength := min (|recentReturn| / adjustedThreshold) 1,
                 reason := "Negative momentum", timestamp := now }
        else
          some { action := "hold", symbol := token.symbol, strength := 0,
                 reason := "No significant momentum", timestamp := now }

/-- `MeanReversionStrategy._analyze_mean_reversion`, at `R := ℝ`.
`np.mean` and the population `np.std` of the pruned window are taken
exactly; `np.std` is `Real.sqrt` of the mean squared deviation. -/
noncomputable def analyzeMeanReversion (zThresholds : List (String × ℝ))
    (lookbackHours : ℚ) (token : TokenInfo) (priorHistory : List (PriceEntry ℝ))
    (currentPrice : Option ℝ) (now : ℚ) : Option (Signal ℝ) :=
  match currentPrice with
  | none => none
  | some cp =>
    if cp ≤ 0 then none
    else
      let zThreshold := getZScoreThreshold zThresholds token.category
      let hist := pruneHistory lookbackHours now (priorHistory ++ [⟨cp, now⟩])
      if hist.length < 10 then none
      else
        let prices := hist.map (·.price)
        let meanPrice : ℝ := prices.sum / (prices.length : ℝ)
        let stdPrice : ℝ :=
          Real.sqrt ((prices.map (fun p => (p - meanPrice) ^ 2)).sum / (prices.length : ℝ))
        if stdPrice = 0 then none
        else
          let zScore := (cp - meanPrice) / stdPrice
          if zScore > zThreshold then
            some { action := "sell", symbol := token.symbol,
                   strength := min (|zScore| / zThreshold) 1,
                   reason := "Price too high", timestamp := now }
          else if zScore < -zThreshold then
            some { action := "buy", symbol := token.symbol,
                   strength := min (|zScore| / zThreshold) 1,
                   reason := "Price too low", timestamp := now }
          else
            some { action := "hold", symbol := token.symbol, strength := 0,
                   reason := "Price normal", timestamp := now }

/-- `TokenConfigManager.get_non_stablecoin_tokens`: enabled tokens whose
category is not `'stablecoin'`. -/
def nonStablecoinTokens (tokens : List TokenInfo) : List TokenInfo :=
  tokens.filter (fun t => t.enabled ∧ t.category ≠ "stablecoin")

/-- The accumulation step of both `generate_signals` loops:
`if signal and signal.action != 'hold': signals.append(signal)`. -/
def appendActionable {R : Type} (acc : List (Signal R)) (sig : Option (Signal R)) :
    List (Signal R) :=
  match sig with
  | some s => if s.action ≠ "hold" then acc ++ [s] else acc
  | none => acc

/-- `MomentumStrategy.generate_signals`: analyze each enabled
non-stablecoin token and keep only the actionable (non-hold) signals.
`priceOf` and `histOf` supply each token's current price and prior
rolling window. -/
def momentumGenerateSignals {R : Type} [LinearOrderedField R]
    (thresholds multipliers : List (String × R)) (lookbackHours : ℚ)
    (tokens : List TokenInfo) (priceOf : TokenInfo → Option R)
    (histOf : TokenInfo → List (PriceEntry R)) (now : ℚ) : List (Signal R) :=
  (nonStablecoinTokens tokens).foldl
    (fun acc t =>
      appendActionable acc (analyzeMomentum thresholds multipliers lookbackHours t (histOf t) (priceOf t) now))
    []

/-- `MeanReversionStrategy.generate_signals`, same shape. -/
noncomputable def meanRevGenerateSignals (zThresholds : List (String × ℝ))
    (lookbackHours : ℚ) (tokens : List TokenInfo) (priceOf : TokenInfo → Option ℝ)
    (histOf : TokenInfo → List (PriceEntry ℝ)) (now : ℚ) : List (Signal ℝ) :=
  (nonStablecoinTokens tokens).foldl
    (fun acc t =>
      appendActionable acc (analyzeMeanReversion zThresholds lookbackHours t (histOf t) (priceOf t) now))
    []

/-- Sum of the strengths of the buy signals in a group
(`buy_strength` in `MultiStrategyManager._combine_signals`). -/
def buyStrength {R : Type} [LinearOrderedField R] (signals : List (Signal R)) : R :=
  ((signals.filter (fun s => s.action = "buy")).map (·.strength)).sum

/-- Sum of the strengths of the sell signals in a group
(`sell_strength` in `MultiStrategyManager._combine_signals`). -/
def sellStrength {R : Type} [LinearOrderedField R] (signals : List (Signal R)) : R :=
  ((signals.filter (fun s => s.action = "sell")).map (·.strength)).sum

/-- `MultiStrategyManager._combine_signals` (net-strength voting).  The
Python code reads `signals[0].symbol` (an `IndexError` on an empty list;
the caller only passes groups of at least two signals), modelled by
`headD` with a junk default.  The reason of the tie branch is the
literal string `"Conflicting signals"`; the buy/sell reasons also list
the signal counts. -/
def combineSignals {R : Type} [LinearOrderedField R] (signals : List (Signal R))
    (now : ℚ) : Signal R :=
  let buys := signals.filter (fun s => s.action = "buy")
  let sells := signals.filter (fun s => s.action = "sell")
  let bs := (buys.map (·.strength)).sum
  let ss := (sells.map (·.strength)).sum
  let sym := (signals.headD { action := "hold", symbol := "", strength := 0,
                              reason := "", timestamp := 0 }).symbol
  if bs > ss then
    { action := "buy", symbol := sym, strength := bs - ss,
      reason := "Combined buy signals: " ++ toString buys.length ++ " buy, " ++
        toString sells.length ++ " sell", timestamp := now }
  else if ss > bs then
    { action := "sell", symbol := sym, strength := ss - bs,
      reason := "Combined sell signals: " ++ toString sells.length ++ " sell, " ++
        toString buys.length ++ " buy", timestamp := now }
  else
    { action := "hold", symbol := sym, strength := 0,
      reason := "Conflicting signals", timestamp := now }

/-- The distinct symbols of a signal list in first-occurrence order — the
key order of the `signal_groups` dict built by
`MultiStrategyManager._combine_signals_by_symbol`. -/
def symbolsInOrder {R : Type} (signals : List (Signal R)) : List String :=
  signals.foldl (fun acc s => if s.symbol ∈ acc then acc else acc ++ [s.symbol]) []

/-- `MultiStrategyManager._combine_signals_by_symbol`: group by symbol
(insertion order); a one-signal group passes through unchanged, a larger
group is merged by `combineSignals`. -/
def combineSignalsBySymbol {R : Type} [LinearOrderedField R]
    (signals : List (Signal R)) (now : ℚ) : List (Signal R) :=
  (symbolsInOrder signals).map (fun sym =>
    let group := signals.filter (fun s => s.symbol = sym)
    if group.length = 1 then
      group.headD { action := "hold", symbol := "", strength := 0, reason := "", timestamp := 0 }
    else combineSignals group now)

/-! ## Market data (`src/market_data.py`, `src/trading_client.py`) -/

/-- `RecallTradingClient.get_token_price` (lines 109–146): the upstream
`/price` response is `none` when the request raises; otherwise the raw
`float(data.get("price", 0))` value.  A non-positive raw price is turned
into `None` ("Return None instead of 0 to indicate failure"). -/
def clientGetTokenPrice {R : Type} [LinearOrderedField R] (resp : Option R) : Option R :=
  match resp with
  | none => none
  | some raw => if raw ≤ 0 then none else some raw

/-- One entry of `MarketDataProvider.price_cache`: key `"{address}_{chain}"`,
the stored price (which may itself be `None`), and the store time. -/
structure CacheEntry (R : Type) where
  key : String
  price : Option R
  timestamp : ℚ

/-- Replace-or-insert for the `price_cache` dict. -/
def upsertCache {R : Type} (cache : List (CacheEntry R)) (key : String) (price : Option R)
    (now : ℚ) : List (CacheEntry R) :=
  if (cache.find? (fun e => e.key = key)).isSome then
    cache.map (fun e => if e.key = key then ⟨key, price, now⟩ else e)
  else cache ++ [⟨key, price, now⟩]

/-- `MarketDataProvider.get_token_price` (lines 36–59): a cache entry
younger than `cache_duration` is returned as-is; otherwise the trading
client is consulted (`upstream = none` models an exception inside the
`try` block, which returns `None` and leaves the cache unchanged;
`upstream = some resp` models `trading_client.get_token_price` running
on the raw upstream response `resp`).  Returns the price and the new
cache. -/
def mdGetTokenPrice {R : Type} [LinearOrderedField R] (cache : List (CacheEntry R))
    (cacheDuration : ℚ) (key : String) (now : ℚ) (upstream : Option (Option R)) :
    Option R × List (CacheEntry R) :=
  let fetch : Option R × List (CacheEntry R) :=
    match upstream with
    | none => (none, cache)
    | some resp =>
      let price := clientGetTokenPrice resp
      (price, upsertCache cache key price now)
  match cache.find? (fun e => e.key = key) with
  | some e => if now - e.timestamp < cacheDuration then (e.price, cache) else fetch
  | none => fetch

/-- A well-formed price cache stores only absent or positive prices. -/
def cacheWF {R : Type} [LinearOrderedField R] (cache : List (CacheEntry R)) : Prop :=
  ∀ e ∈ cache, e.price = none ∨ ∃ p : R, 0 < p ∧ e.price = some p

/-! ## Concrete example inputs used by counterexamples and witnesses -/

/-- Portfolio configuration with two heavily over-allocated assets `A`,
`B` and one under-allocated asset `C`, all on one chain. -/
def cfgAB : RebalanceConfig :=
  { targetAllocations := [("A", 1/10), ("B", 1/10), ("C", 1/2)]
  , rebalanceThreshold := 1/20
  , minTradeAmount := 10
  , tradingPairs := [("ethereum", [("A", "0xa"), ("B", "0xb"), ("C", "0xc")])] }

/-- A portfolio status for `cfgAB` with total value 1000: `A` and `B`
each hold 400 (target 100, excess 300) and `C` holds 200 (target 500,
deficit 300). -/
def statusAB : List PortfolioTarget :=
  [ { symbol := "A", target_allocation := 1/10, current_allocation := 2/5,
      current_value := 400, drift := 3/10 }
  , { symbol := "B", target_allocation := 1/10, current_allocation := 2/5,
      current_value := 400, drift := 3/10 }
  , { symbol := "C", target_allocation := 1/2, current_allocation := 1/5,
      current_value := 200, drift := -(3/10) } ]

/-- The configuration of the sample `config/portfolio_config.json`
(targets USDC 50%, WETH 30%, SOL 20%). -/
def cfgMain : RebalanceConfig :=
  { targetAllocations := [("USDC", 1/2), ("WETH", 3/10), ("SOL", 1/5)]
  , rebalanceThreshold := 1/20
  , minTradeAmount := 10
  , tradingPairs := [("ethereum", [("USDC", "0x1"), ("WETH", "0x2")]), ("solana", [("SOL", "s1")])] }

/-- A status for `cfgMain` with total 1000: USDC holds 800 (excess 300),
WETH holds 0 (deficit 300), SOL is exactly on target. -/
def statusMainPair : List PortfolioTarget :=
  [ { symbol := "USDC", target_allocation := 1/2, current_allocation := 4/5,
      current_value := 800, drift := 3/10 }
  , { symbol := "WETH", target_allocation := 3/10, current_allocation := 0,
      current_value := 0, drift := -(3/10) }
  , { symbol := "SOL", target_allocation := 1/5, current_allocation := 1/5,
      current_value := 200, drift := 0 } ]

/-- A sample configured non-stablecoin token. -/
def tokX : TokenInfo :=
  { symbol := "X", address := "0xa", chain := "ethereum", decimals := 18,
    category := "major", enabled := true, volatilityExpected := "medium" }

/-- A prior mean-reversion window of nine samples: five at 90 and four
at 110; appending a current price of 110 gives mean 100 and population
standard deviation 10. -/
def mrPrior : List (PriceEntry ℝ) :=
  [ ⟨90, 999100⟩, ⟨90, 999200⟩, ⟨90, 999300⟩, ⟨90, 999400⟩, ⟨90, 999500⟩,
    ⟨110, 999600⟩, ⟨110, 999700⟩, ⟨110, 999800⟩, ⟨110, 999900⟩ ]

/-! ## Theorems -/

/-- The status-assembly loop never divides when the total is 0: every
allocation in that case is the literal 0. -/
theorem core_alloc_zero (targets : List (String × ℚ)) (balances : List Balance) :
    ∀ t ∈ getPortfolioStatusCore targets balances 0, t.current_allocation = 0 := by
  intro t ht
  simp only [getPortfolioStatusCore, List.mem_map] at ht
  obtain ⟨st, _, rfl⟩ := ht
  simp

/-- Trades produced by the inner pairing loop either were already in the
accumulator or pair the current over-allocated symbol with one of the
under-allocated symbols on the same chain. -/
theorem foldl_innerStep_mem (minTrade : ℚ) (chainOf : String → Option String)
    (overSym : String) (unders : List (String × ℚ)) :
    ∀ (st : List (String × String × ℚ) × ℚ) (tr : String × String × ℚ),
      tr ∈ (unders.foldl (innerStep minTrade chainOf overSym) st).1 →
      tr ∈ st.1 ∨
        (tr.1 = overSym ∧ chainOf tr.1 = chainOf tr.2.1 ∧ tr.2.1 ∈ unders.map Prod.fst) := by
  induction unders with
  | nil => intro st tr h; exact Or.inl h
  | cons u us ih =>
    intro st tr h
    simp only [List.foldl_cons] at h
    rcases ih _ tr h with h1 | h2
    · simp only [innerStep] at h1
      split_ifs at h1 with hpos hchain hmin
      · rcases List.mem_append.mp h1 with ha | hb
        · exact Or.inl ha
        · have htr : tr = (overSym, u.1, min st.2 u.2) := List.mem_singleton.mp hb
          subst htr
          refine Or.inr ⟨rfl, ?_, ?_⟩
          · simpa using hchain
          · simp
      · exact Or.inl h1
      · exact Or.inl h1
      · exact Or.inl h1
    · exact Or.inr ⟨h2.1, h2.2.1, by simpa using Or.inr h2.2.2⟩

/-- Trades produced by the greedy pairing pair an over-allocated symbol
with an under-allocated symbol that the chain lookup maps to the same
result. -/
theorem foldl_outerStep_mem (minTrade : ℚ) (chainOf : String → Option String)
    (unders : List (String × ℚ)) (overs : List (String × ℚ)) :
    ∀ (acc : List (String × String × ℚ)) (tr : String × String × ℚ),
      tr ∈ overs.foldl (outerStep minTrade chainOf unders) acc →
      tr ∈ acc ∨
        (tr.1 ∈ overs.map Prod.fst ∧ chainOf tr.1 = chainOf tr.2.1 ∧
          tr.2.1 ∈ unders.map Prod.fst) := by
  induction overs with
  | nil => intro acc tr h; exact Or.inl h
  | cons o os ih =>
    intro acc tr h
    simp only [List.foldl_cons] at h
    rcases ih _ tr h with h1 | h2
    · unfold outerStep at h1
      rcases foldl_innerStep_mem minTrade chainOf o.1 unders (acc, o.2) tr h1 with ha | hb
      · exact Or.inl ha
      · refine Or.inr ⟨?_, hb.2.1, hb.2.2⟩
        rw [hb.1]; simp
    · exact Or.inr ⟨by simpa using Or.inr h2.1, h2.2.1, h2.2.2⟩

/-- Symbols classified by the drift loop all come from the status list. -/
theorem foldl_classifyStep_syms (cfg : RebalanceConfig) (total : ℚ)
    (status : List PortfolioTarget) :
    ∀ (acc : List (String × ℚ) × List (String × ℚ)) (p : String × ℚ),
      (p ∈ (status.foldl (classifyStep cfg total) acc).1 →
        p ∈ acc.1 ∨ p.1 ∈ status.map PortfolioTarget.symbol) ∧
      (p ∈ (status.foldl (classifyStep cfg total) acc).2 →
        p ∈ acc.2 ∨ p.1 ∈ status.map PortfolioTarget.symbol) := by
  induction status with
  | nil => intro acc p; exact ⟨fun h => Or.inl h, fun h => Or.inl h⟩
  | cons t ts ih =>
    intro acc p
    constructor
    · intro h
      simp only [List.foldl_cons] at h
      rcases (ih _ p).1 h with h1 | h2
      · simp only [classifyStep] at h1
        split_ifs at h1 with hdrift hunder hover
        · exact Or.inl h1
        · rcases List.mem_append.mp h1 with ha | hb
          · exact Or.inl ha
          · have hp : p = (t.symbol, |t.target_allocation * total - t.current_value|) :=
              List.mem_singleton.mp hb
            right; rw [hp]; simp
        · exact Or.inl h1
        · exact Or.inl h1
      · exact Or.inr (by simpa using Or.inr h2)
    · intro h
      simp only [List.foldl_cons] at h
      rcases (ih _ p).2 h with h1 | h2
      · simp only [classifyStep] at h1
        split_ifs at h1 with hdrift hunder hover
        · rcases List.mem_append.mp h1 with ha | hb
          · exact Or.inl ha
          · have hp : p = (t.symbol, t.target_allocation * total - t.current_value) :=
              List.mem_singleton.mp hb
            right; rw [hp]; simp
        · exact Or.inl h1
        · exact Or.inl h1
        · exact Or.inl h1
      · exact Or.inr (by simpa using Or.inr h2)

/-- Claim C1 (code_bug evidence).  On `cfgAB`/`statusAB` the under-allocated
asset `C` has a computed deficit of 300, yet `calculate_rebalance_trades`
proposes two trades into `C` totalling 600: the Python statement
`under_amount -= trade_amount` decrements a loop variable that the next
iteration of the inner loop rebinds from the unmodified
`under_allocated` list, so the deficit is never actually decremented
across over-allocated assets. -/
theorem c1_deficit_overfilled :
    calculateRebalanceTrades cfgAB statusAB = [("A", "C", 300), ("B", "C", 300)] ∧
    (classifyAssets cfgAB statusAB).2 = [("C", 300)] ∧
    (((calculateRebalanceTrades cfgAB statusAB).filter (fun tr => tr.2.1 = "C")).map
        (fun tr => tr.2.2)).sum = 600 ∧
    ¬ ((600 : ℚ) ≤ 300) := by
  have h1 : calculateRebalanceTrades cfgAB statusAB = [("A", "C", 300), ("B", "C", 300)] := by
    norm_num [calculateRebalanceTrades, classifyAssets, classifyStep, pairTrades, outerStep,
      innerStep, cfgAB, statusAB, List.foldl, abs, max_def, min_def, getTokenChain, List.find?]
    simp +decide
  have h2 : (classifyAssets cfgAB statusAB).2 = [("C", 300)] := by
    norm_num [classifyAssets, classifyStep, cfgAB, statusAB, List.foldl, abs, max_def]
  refine ⟨h1, h2, ?_, by norm_num⟩
  rw [h1]
  norm_num [List.filter]

/-- Claim C3: every trade proposed by `calculate_rebalance_trades` pairs
two symbols that `_get_token_chain` resolves to the same chain, provided
every symbol of the portfolio status resolves to some chain. -/
theorem c3_trades_same_chain (cfg : RebalanceConfig) (status : List PortfolioTarget)
    (hres : ∀ t ∈ status, (getTokenChain cfg t.symbol).isSome) :
    ∀ tr ∈ calculateRebalanceTrades cfg status,
      ∃ c, getTokenChain cfg tr.1 = some c ∧ getTokenChain cfg tr.2.1 = some c := by
  intro tr htr
  unfold calculateRebalanceTrades pairTrades at htr
  rcases foldl_outerStep_mem cfg.minTradeAmount (getTokenChain cfg) _ _ [] tr htr with h | h
  · simp at h
  · obtain ⟨hover, hchain, _⟩ := h
    have hsym : tr.1 ∈ status.map PortfolioTarget.symbol := by
      unfold classifyAssets at hover
      rcases List.mem_map.mp hover with ⟨p, hp, hp1⟩
      rcases (foldl_classifyStep_syms cfg _ status _ p).1 hp with h0 | h0
      · simp at h0
      · rw [← hp1]; exact h0
    rcases List.mem_map.mp hsym with ⟨t, ht, hts⟩
    have := hres t ht
    rw [hts] at this
    rcases Option.isSome_iff_exists.mp this with ⟨c, hc⟩
    exact ⟨c, hc, by rw [← hchain]; exact hc⟩

/-- Claim C6: in both status computations a zero total produces
allocation 0 for every asset; the division is guarded by `total > 0` and
is never executed on a zero total. -/
theorem c6_zero_total_zero_allocations (targets : List (String × ℚ))
    (balances : List Balance) (cfg : RebalanceConfig) (tokens : List PortfolioTokenEntry)
    (htot : (processTokenValues cfg tokens).2 = 0) :
    (∀ t ∈ getPortfolioStatusCore targets balances 0, t.current_allocation = 0) ∧
    (∀ t ∈ processPortfolioData cfg tokens, t.current_allocation = 0) := by
  refine ⟨core_alloc_zero targets balances, ?_⟩
  intro t ht
  simp only [processPortfolioData, List.mem_map] at ht
  obtain ⟨st, _, rfl⟩ := ht
  simp [htot]

/-- Witness for C6: with one configured symbol, an empty balance list, a
zero total, and an empty portfolio-endpoint token list, the computed
allocations are 0. -/
theorem c6_witness :
    ((getPortfolioStatusCore [("USDC", 1/2)] [] 0).headD
        { symbol := "", target_allocation := 0, current_allocation := 1,
          current_value := 0, drift := 0 }).current_allocation = 0 ∧
    ((processPortfolioData cfgMain []).headD
        { symbol := "", target_allocation := 0, current_allocation := 1,
          current_value := 0, drift := 0 }).current_allocation = 0 := by
  have h := c6_zero_total_zero_allocations [("USDC", 1/2)] [] cfgMain [] rfl
  constructor
  · exact h.1 _ (by simp [getPortfolioStatusCore])
  · exact h.2 _ (by simp [processPortfolioData, processTokenValues, cfgMain, assocLookup])

/-- Claim C4 (counterexample).  First conjunct: when the portfolio
endpoint reports total value 0 and the balances endpoint returns an
empty list (so the fallback valuation is 0 as well),
`get_portfolio_status` does not produce any "portfolio data unavailable"
outcome — it returns a fully populated status map with every allocation
zero.  Second conjunct: when the portfolio call raises, the function
substitutes the hard-coded mock balances and returns allocations
fabricated from them (USDC 2/7, WETH 4/7, SOL 1/7 of a $3500 total). -/
theorem c4_no_unavailable_outcome :
    getPortfolioStatus cfgMain (some { totalValue := 0, tokens := [] }) (some []) =
      [ { symbol := "USDC", target_allocation := 1/2, current_allocation := 0,
          current_value := 0, drift := -(1/2) }
      , { symbol := "WETH", target_allocation := 3/10, current_allocation := 0,
          current_value := 0, drift := -(3/10) }
      , { symbol := "SOL", target_allocation := 1/5, current_allocation := 0,
          current_value := 0, drift := -(1/5) } ] ∧
    getPortfolioStatus cfgMain none (some []) =
      [ { symbol := "USDC", target_allocation := 1/2, current_allocation := 2/7,
          current_value := 1000, drift := 2/7 - 1/2 }
      , { symbol := "WETH", target_allocation := 3/10, current_allocation := 4/7,
          current_value := 2000, drift := 4/7 - 3/10 }
      , { symbol := "SOL", target_allocation := 1/5, current_allocation := 1/7,
          current_value := 500, drift := 1/7 - 1/5 } ] := by
  constructor
  · norm_num [getPortfolioStatus, getPortfolioStatusCore, calcValueFromBalances, cfgMain,
      List.find?]
  · norm_num [getPortfolioStatus, getPortfolioStatusCore, mockBalances, cfgMain, List.find?]
    simp +decide
    norm_num

/-- Claim C4 (amended).  When the portfolio endpoint reports a
non-positive total, `get_portfolio_status` falls back to the balances
endpoint valued by `_calculate_portfolio_value_from_balances`; if that
total is 0 too it still returns a status map whose allocations are all 0
(the division is guarded, so no division by zero occurs) rather than any
"unavailable" outcome; and when an API call raises it substitutes the
hard-coded mock balances. -/
theorem c4_fallback_behavior (cfg : RebalanceConfig) (p : PortfolioResp)
    (bs : List Balance) (hp : p.totalValue ≤ 0) :
    getPortfolioStatus cfg (some p) (some bs) =
      getPortfolioStatusCore cfg.targetAllocations bs (calcValueFromBalances bs) ∧
    (calcValueFromBalances bs = 0 →
      ∀ t ∈ getPortfolioStatus cfg (some p) (some bs), t.current_allocation = 0) ∧
    getPortfolioStatus cfg none (some bs) =
      getPortfolioStatusCore cfg.targetAllocations mockBalances
        ((mockBalances.map (·.usd_value)).sum) := by
  have hnot : ¬ p.totalValue > 0 := not_lt.mpr hp
  refine ⟨by simp [getPortfolioStatus, hnot], ?_, by simp [getPortfolioStatus]⟩
  intro hz t ht
  simp only [getPortfolioStatus, hnot, if_false] at ht
  rw [hz] at ht
  exact core_alloc_zero _ _ t ht

/-- Witness for C4 (amended) at the concrete unusable-data run. -/
theorem c4_witness :
    getPortfolioStatus cfgMain (some { totalValue := 0, tokens := [] }) (some []) =
      getPortfolioStatusCore cfgMain.targetAllocations [] (calcValueFromBalances []) ∧
    ((getPortfolioStatus cfgMain (some { totalValue := 0, tokens := [] }) (some [])).headD
        { symbol := "", target_allocation := 0, current_allocation := 1,
          current_value := 0, drift := 0 }).current_allocation = 0 := by
  have h := c4_fallback_behavior cfgMain { totalValue := 0, tokens := [] } [] le_rfl
  refine ⟨h.1, h.2.1 rfl _ ?_⟩
  rw [h.1]
  simp [getPortfolioStatusCore, calcValueFromBalances, cfgMain]

/-- A group in which every signal carries the same symbol has exactly
that one symbol, so `_combine_signals_by_symbol` forms a single group. -/
theorem symbolsInOrder_const {R : Type} (sym : String) :
    ∀ (l : List (Signal R)), (∀ s ∈ l, s.symbol = sym) → l ≠ [] → symbolsInOrder l = [sym] := by
  have haux : ∀ (l : List (Signal R)), (∀ s ∈ l, s.symbol = sym) →
      l.foldl (fun acc s => if s.symbol ∈ acc then acc else acc ++ [s.symbol]) [sym] = [sym] := by
    intro l
    induction l with
    | nil => intro _; rfl
    | cons a as ih =>
      intro hall
      have ha : a.symbol = sym := hall a (by simp)
      simpa [ha] using ih (fun s hs => hall s (by simp [hs]))
  intro l hall hne
  match l with
  | a :: as =>
    have ha : a.symbol = sym := hall a (by simp)
    simp only [symbolsInOrder, List.foldl_cons, List.not_mem_nil, if_false, List.nil_append]
    rw [ha]
    exact haux as (fun s hs => hall s (by simp [hs]))

/-- Claim C2 (amended): for a group of at least two signals sharing one
symbol, the combiner emits exactly one signal for the group by
net-strength voting; a buy-majority emits buy with the strength
difference, a sell-majority emits sell, and a tie emits hold with
strength 0 and reason `"Conflicting signals"` (capital C in the code). -/
theorem c2_net_strength_voting {R : Type} [LinearOrderedField R]
    (signals : List (Signal R)) (now : ℚ) (sym : String)
    (hlen : 2 ≤ signals.length) (hsym : ∀ s ∈ signals, s.symbol = sym) :
    combineSignalsBySymbol signals now = [combineSignals signals now] ∧
    (combineSignals signals now).symbol = sym ∧
    (sellStrength signals < buyStrength signals →
      (combineSignals signals now).action = "buy" ∧
      (combineSignals signals now).strength = buyStrength signals - sellStrength signals) ∧
    (buyStrength signals < sellStrength signals →
      (combineSignals signals now).action = "sell" ∧
      (combineSignals signals now).strength = sellStrength signals - buyStrength signals) ∧
    (buyStrength signals = sellStrength signals →
      (combineSignals signals now).action = "hold" ∧
      (combineSignals signals now).strength = 0 ∧
      (combineSignals signals now).reason = "Conflicting signals") := by
  have hne : signals ≠ [] := by
    intro h; rw [h] at hlen; exact absurd hlen (by norm_num)
  have hfilter : signals.filter (fun s => s.symbol = sym) = signals :=
    List.filter_eq_self.mpr (fun s hs => by simp [hsym s hs])
  refine ⟨?_, ?_, ?_, ?_, ?_⟩
  · rw [combineSignalsBySymbol, symbolsInOrder_const sym signals hsym hne]
    simp only [List.map_cons, List.map_nil, hfilter]
    rw [if_neg (by omega : ¬ signals.length = 1)]
  · obtain ⟨a, as, rfl⟩ : ∃ a as, signals = a :: as := by
      cases signals with
      | nil => exact absurd rfl hne
      | cons a as => exact ⟨a, as, rfl⟩
    have ha : a.symbol = sym := hsym a (List.mem_cons_self a as)
    simp only [combineSignals, List.headD_cons]
    split_ifs <;> exact ha
  · intro h
    simp only [buyStrength, sellStrength] at h
    simp only [combineSignals, buyStrength, sellStrength]
    rw [if_pos h]
    exact ⟨rfl, rfl⟩
  · intro h
    simp only [buyStrength, sellStrength] at h
    simp only [combineSignals, buyStrength, sellStrength]
    rw [if_neg (not_lt.mpr (le_of_lt h)), if_pos h]
    exact ⟨rfl, rfl⟩
  · intro h
    simp only [buyStrength, sellStrength] at h
    simp only [combineSignals, buyStrength, sellStrength]
    rw [if_neg (not_lt.mpr (le_of_eq h)), if_neg (not_lt.mpr (le_of_eq h.symm))]
    exact ⟨rfl, rfl, rfl⟩

/-- Witness for C2 (amended): `{buy 0.5, buy 0.2}` for one asset merges
into one buy of strength 0.7, and `{buy 0.3, sell 0.3}` merges into a
hold with reason `"Conflicting signals"`. -/
theorem c2_witness :
    (combineSignals (R := ℚ)
        [ { action := "buy", symbol := "X", strength := 1/2, reason := "momentum", timestamp := 0 }
        , { action := "buy", symbol := "X", strength := 1/5, reason := "reversion", timestamp := 0 } ]
        5).action = "buy" ∧
    (combineSignals (R := ℚ)
        [ { action := "buy", symbol := "X", strength := 1/2, reason := "momentum", timestamp := 0 }
        , { action := "buy", symbol := "X", strength := 1/5, reason := "reversion", timestamp := 0 } ]
        5).strength = 7/10 ∧
    combineSignalsBySymbol (R := ℚ)
        [ { action := "buy", symbol := "X", strength := 1/2, reason := "momentum", timestamp := 0 }
        , { action := "buy", symbol := "X", strength := 1/5, reason := "reversion", timestamp := 0 } ]
        5 =
      [combineSignals (R := ℚ)
        [ { action := "buy", symbol := "X", strength := 1/2, reason := "momentum", timestamp := 0 }
        , { action := "buy", symbol := "X", strength := 1/5, reason := "reversion", timestamp := 0 } ]
        5] ∧
    (combineSignals (R := ℚ)
        [ { action := "buy", symbol := "Y", strength := 3/10, reason := "momentum", timestamp := 0 }
        , { action := "sell", symbol := "Y", strength := 3/10, reason := "reversion", timestamp := 0 } ]
        5).reason = "Conflicting signals" := by
  have hb := c2_net_strength_voting (R := ℚ)
    [ { action := "buy", symbol := "X", strength := 1/2, reason := "momentum", timestamp := 0 }
    , { action := "buy", symbol := "X", strength := 1/5, reason := "reversion", timestamp := 0 } ]
    5 "X" (by norm_num)
    (by intro s hs
        simp only [List.mem_cons, List.not_mem_nil, or_false] at hs
        rcases hs with h | h <;> simp [h])
  have ht := c2_net_strength_voting (R := ℚ)
    [ { action := "buy", symbol := "Y", strength := 3/10, reason := "momentum", timestamp := 0 }
    , { action := "sell", symbol := "Y", strength := 3/10, reason := "reversion", timestamp := 0 } ]
    5 "Y" (by norm_num)
    (by intro s hs
        simp only [List.mem_cons, List.not_mem_nil, or_false] at hs
        rcases hs with h | h <;> simp [h])
  have hlt : sellStrength (R := ℚ)
      [ { action := "buy", symbol := "X", strength := 1/2, reason := "momentum", timestamp := 0 }
      , { action := "buy", symbol := "X", strength := 1/5, reason := "reversion", timestamp := 0 } ] <
      buyStrength (R := ℚ)
      [ { action := "buy", symbol := "X", strength := 1/2, reason := "momentum", timestamp := 0 }
      , { action := "buy", symbol := "X", strength := 1/5, reason := "reversion", timestamp := 0 } ] := by
    norm_num [buyStrength, sellStrength, List.filter,
      show (decide ("buy" = "sell")) = false from rfl]
  have heq : buyStrength (R := ℚ)
      [ { action := "buy", symbol := "Y", strength := 3/10, reason := "momentum", timestamp := 0 }
      , { action := "sell", symbol := "Y", strength := 3/10, reason := "reversion", timestamp := 0 } ] =
      sellStrength (R := ℚ)
      [ { action := "buy", symbol := "Y", strength := 3/10, reason := "momentum", timestamp := 0 }
      , { action := "sell", symbol := "Y", strength := 3/10, reason := "reversion", timestamp := 0 } ] := by
    norm_num [buyStrength, sellStrength, List.filter,
      show (decide ("buy" = "sell")) = false from rfl,
      show (decide ("sell" = "buy")) = false from rfl]
  refine ⟨(hb.2.2.1 hlt).1, ((hb.2.2.1 hlt).2).trans ?_, hb.1, (ht.2.2.2.2 heq).2.2⟩
  norm_num [buyStrength, sellStrength, List.filter,
    show (decide ("buy" = "sell")) = false from rfl]

/-- Claim C2 (counterexample to the stated reason string): combining
`{buy 0.3, sell 0.3}` yields a hold whose reason is the capitalized
string `"Conflicting signals"`, not `"conflicting signals"`. -/
theorem c2_tie_reason_capitalized :
    (combineSignals (R := ℚ)
        [ { action := "buy", symbol := "X", strength := 3/10, reason := "momentum", timestamp := 0 }
        , { action := "sell", symbol := "X", strength := 3/10, reason := "reversion", timestamp := 0 } ]
        5) =
      { action := "hold", symbol := "X", strength := 0,
        reason := "Conflicting signals", timestamp := 5 } ∧
    "Conflicting signals" ≠ "conflicting signals" := by
  constructor
  · norm_num [combineSignals, List.filter, show (decide ("buy" = "sell")) = false from rfl,
      show (decide ("sell" = "buy")) = false from rfl]
  · decide

/-- Claim C9 (code_bug evidence): the combiner can emit a signal whose
strength exceeds 1 — two buy signals of strength 1.0 (one from each
strategy, both attainable) merge into a buy of strength 2.0, violating
the `strength: float  # 0-1` contract stated on the `Signal` dataclass. -/
theorem c9_combined_strength_exceeds_one :
    combineSignals (R := ℚ)
        [ { action := "buy", symbol := "WETH", strength := 1, reason := "momentum", timestamp := 0 }
        , { action := "buy", symbol := "WETH", strength := 1, reason := "reversion", timestamp := 0 } ]
        0 =
      { action := "buy", symbol := "WETH", strength := 2,
        reason := "Combined buy signals: 2 buy, 0 sell", timestamp := 0 } ∧
    ¬ ((2 : ℚ) ≤ 1) := by
  constructor
  · norm_num [combineSignals, List.filter, show (decide ("buy" = "sell")) = false from rfl]
    rfl
  · norm_num

/-- Witness for C3 at a concrete run: the single proposed trade on
`cfgMain` pairs USDC and WETH, both resolving to chain `ethereum`. -/
theorem c3_witness :
    ∃ c, getTokenChain cfgMain "USDC" = some c ∧ getTokenChain cfgMain "WETH" = some c := by
  have hstat : ∀ t ∈ statusMainPair, (getTokenChain cfgMain t.symbol).isSome := by decide
  refine c3_trades_same_chain cfgMain statusMainPair hstat ("USDC", "WETH", 300) ?_
  norm_num [calculateRebalanceTrades, classifyAssets, classifyStep, pairTrades, outerStep,
    innerStep, cfgMain, statusMainPair, List.foldl, abs, max_def, min_def, getTokenChain,
    List.find?]
  simp +decide

/-- Claim C7: with a valid current price and at least two samples in the
pruned window, the momentum analyzer compares the window return against
the volatility-adjusted category threshold: `return > threshold` yields
buy with strength `min(|return|/threshold, 1)`, `return < -threshold`
yields sell with the same strength formula, and otherwise a hold of
strength 0 whose reason contains "No significant momentum". -/
theorem c7_momentum_branches {R : Type} [LinearOrderedField R]
    (thresholds multipliers : List (String × R)) (lb : ℚ) (tok : TokenInfo)
    (hist0 : List (PriceEntry R)) (cp : R) (now : ℚ)
    (w : List (PriceEntry R)) (r thr : R)
    (hcp : 0 < cp)
    (hw : w = pruneHistory lb now (hist0 ++ [⟨cp, now⟩]))
    (hlen : 2 ≤ w.length)
    (hthr : thr = getMomentumThreshold thresholds tok.category *
      getVolatilityMultiplier multipliers tok.volatilityExpected)
    (hthrpos : 0 ≤ thr)
    (hr : r = ((w.map (fun e => e.price)).getLastD 0 - (w.map (fun e => e.price)).headD 0) /
      (w.map (fun e => e.price)).headD 0) :
    (thr < r →
      analyzeMomentum thresholds multipliers lb tok hist0 (some cp) now =
        some { action := "buy", symbol := tok.symbol, strength := min (|r| / thr) 1,
               reason := "Positive momentum", timestamp := now }) ∧
    (r < -thr →
      analyzeMomentum thresholds multipliers lb tok hist0 (some cp) now =
        some { action := "sell", symbol := tok.symbol, strength := min (|r| / thr) 1,
               reason := "Negative momentum", timestamp := now }) ∧
    (¬ thr < r → ¬ r < -thr →
      ∃ s suffix, analyzeMomentum thresholds multipliers lb tok hist0 (some cp) now = some s ∧
        s.action = "hold" ∧ s.strength = 0 ∧
        s.reason = "No significant momentum" ++ suffix) := by
  have hnotle : ¬ cp ≤ 0 := not_le.mpr hcp
  have key : analyzeMomentum thresholds multipliers lb tok hist0 (some cp) now =
      (if w.length < 2 then none
       else if thr < r then
        some { action := "buy", symbol := tok.symbol, strength := min (|r| / thr) 1,
               reason := "Positive momentum", timestamp := now }
       else if r < -thr then
        some { action := "sell", symbol := tok.symbol, strength := min (|r| / thr) 1,
               reason := "Negative momentum", timestamp := now }
       else
        some { action := "hold", symbol := tok.symbol, strength := 0,
               reason := "No significant momentum", timestamp := now }) := by
    simp only [analyzeMomentum, hnotle, if_false]
    rw [← hw, ← hthr, ← hr]
  rw [key, if_neg (by omega)]
  refine ⟨fun h => by rw [if_pos h], fun h => ?_, fun h1 h2 => ?_⟩
  · have hrneg : r < thr := lt_of_lt_of_le h (le_trans (neg_nonpos_of_nonneg hthrpos) hthrpos)
    rw [if_neg (not_lt.mpr hrneg.le), if_pos h]
  · rw [if_neg h1, if_neg h2]
    exact ⟨_, "", rfl, rfl, rfl, rfl⟩

/-- Witness for C7: the price series [100, 106] with category threshold
0.05 and volatility multiplier 1 yields a buy of strength
min(0.06/0.05, 1) = 1; the flat series [100, 100] yields a hold of
strength 0 whose reason starts with "No significant momentum". -/
theorem c7_witness :
    analyzeMomentum (R := ℚ) [("major", 1/20)] [] 12 tokX [⟨100, 999900⟩] (some 106) 1000000 =
      some { action := "buy", symbol := "X", strength := 1,
             reason := "Positive momentum", timestamp := 1000000 } ∧
    (∃ s suffix, analyzeMomentum (R := ℚ) [("major", 1/20)] [] 12 tokX [⟨100, 999900⟩]
        (some 100) 1000000 = some s ∧ s.action = "hold" ∧ s.strength = 0 ∧
        s.reason = "No significant momentum" ++ suffix) := by
  have hb := c7_momentum_branches (R := ℚ) [("major", 1/20)] [] 12 tokX [⟨100, 999900⟩]
      106 1000000 [⟨100, 999900⟩, ⟨106, 1000000⟩] (3/50) (1/20)
      (by norm_num)
      (by norm_num [pruneHistory, List.filter])
      (by norm_num)
      (by norm_num [getMomentumThreshold, getVolatilityMultiplier, assocLookup, List.find?, tokX])
      (by norm_num)
      (by norm_num [List.getLastD])
  have hh := c7_momentum_branches (R := ℚ) [("major", 1/20)] [] 12 tokX [⟨100, 999900⟩]
      100 1000000 [⟨100, 999900⟩, ⟨100, 1000000⟩] 0 (1/20)
      (by norm_num)
      (by norm_num [pruneHistory, List.filter])
      (by norm_num)
      (by norm_num [getMomentumThreshold, getVolatilityMultiplier, assocLookup, List.find?, tokX])
      (by norm_num)
      (by norm_num [List.getLastD])
  refine ⟨(hb.1 (by norm_num)).trans ?_, hh.2.2 (by norm_num) (by norm_num)⟩
  norm_num [abs, max_def, min_def, tokX]

/-- The `generate_signals` accumulation step never lets a hold signal
through, whatever the analyzer returns. -/
theorem foldl_appendActionable_no_hold {R : Type} (analyze : TokenInfo → Option (Signal R)) :
    ∀ (l : List TokenInfo) (acc : List (Signal R)),
      (∀ s ∈ acc, s.action ≠ "hold") →
      ∀ s ∈ l.foldl (fun acc2 t => appendActionable acc2 (analyze t)) acc, s.action ≠ "hold" := by
  intro l
  induction l with
  | nil => intro acc hacc s hs; exact hacc s hs
  | cons t ts ih =>
    intro acc hacc s hs
    simp only [List.foldl_cons] at hs
    refine ih _ ?_ s hs
    intro s2 hs2
    cases hq : analyze t with
    | none =>
      rw [hq] at hs2
      simp only [appendActionable] at hs2
      exact hacc s2 hs2
    | some sig =>
      rw [hq] at hs2
      simp only [appendActionable] at hs2
      split_ifs at hs2 with hact
      · rcases List.mem_append.mp hs2 with h | h
        · exact hacc s2 h
        · rw [List.mem_singleton.mp h]; exact hact
      · exact hacc s2 hs2

/-- Claim C10: neither strategy's `generate_signals` ever returns a hold
signal — holds are filtered inside the generator, so every signal handed
to the combiner is a buy or a sell. -/
theorem c10_no_hold_in_generated_signals :
    (∀ (R : Type) [LinearOrderedField R] (thresholds multipliers : List (String × R))
       (lb : ℚ) (tokens : List TokenInfo) (priceOf : TokenInfo → Option R)
       (histOf : TokenInfo → List (PriceEntry R)) (now : ℚ),
       ∀ s ∈ momentumGenerateSignals thresholds multipliers lb tokens priceOf histOf now,
         s.action ≠ "hold") ∧
    (∀ (zThresholds : List (String × ℝ)) (lb : ℚ) (tokens : List TokenInfo)
       (priceOf : TokenInfo → Option ℝ) (histOf : TokenInfo → List (PriceEntry ℝ)) (now : ℚ),
       ∀ s ∈ meanRevGenerateSignals zThresholds lb tokens priceOf histOf now,
         s.action ≠ "hold") := by
  constructor
  · intro R instR thresholds multipliers lb tokens priceOf histOf now
    exact foldl_appendActionable_no_hold
      (fun t => analyzeMomentum thresholds multipliers lb t (histOf t) (priceOf t) now)
      (nonStablecoinTokens tokens) [] (fun s hs => absurd hs (List.not_mem_nil s))
  · intro zThresholds lb tokens priceOf histOf now
    exact foldl_appendActionable_no_hold
      (fun t => analyzeMeanReversion zThresholds lb t (histOf t) (priceOf t) now)
      (nonStablecoinTokens tokens) [] (fun s hs => absurd hs (List.not_mem_nil s))

/-- Concrete evaluation of the mean-reversion analyzer on the window
five at 90, five at 110 (mean 100, population standard deviation 10,
z-score 1) with category z-threshold 0.5: a sell of strength 1. -/
theorem analyzeMR_sell_eval :
    analyzeMeanReversion [("major", 1/2)] 24 tokX mrPrior (some 110) 1000000 =
      some { action := "sell", symbol := "X", strength := 1,
             reason := "Price too high", timestamp := 1000000 } := by
  have hsq : Real.sqrt 100 = 10 := by
    rw [show (100:ℝ) = 10 ^ 2 by norm_num, Real.sqrt_sq (by norm_num : (0:ℝ) ≤ 10)]
  norm_num [analyzeMeanReversion, pruneHistory, List.filter, getZScoreThreshold, assocLookup,
    List.find?, mrPrior, tokX, hsq, abs, max_def, min_def]

/-- Witness for C10: concrete runs of both generators whose outputs are
a buy and a sell respectively, on which the no-hold property holds. -/
theorem c10_witness :
    ((momentumGenerateSignals (R := ℚ) [("major", 1/20)] [] 12 [tokX] (fun _ => some 106)
        (fun _ => [⟨100, 999900⟩]) 1000000).headD
      { action := "hold", symbol := "", strength := 0, reason := "", timestamp := 0 }).action
      ≠ "hold" ∧
    ((meanRevGenerateSignals [("major", 1/2)] 24 [tokX] (fun _ => some 110)
        (fun _ => mrPrior) 1000000).headD
      { action := "hold", symbol := "", strength := 0, reason := "", timestamp := 0 }).action
      ≠ "hold" := by
  have hmom : momentumGenerateSignals (R := ℚ) [("major", 1/20)] [] 12 [tokX]
      (fun _ => some 106) (fun _ => [⟨100, 999900⟩]) 1000000 =
      [{ action := "buy", symbol := "X", strength := 1,
         reason := "Positive momentum", timestamp := 1000000 }] := by
    norm_num [momentumGenerateSignals, nonStablecoinTokens, List.filter, List.foldl,
      appendActionable, analyzeMomentum, pruneHistory, getMomentumThreshold,
      getVolatilityMultiplier, assocLookup, List.find?, tokX, List.getLastD, abs,
      max_def, min_def]
    decide
  have hmr : meanRevGenerateSignals [("major", 1/2)] 24 [tokX] (fun _ => some 110)
      (fun _ => mrPrior) 1000000 =
      [{ action := "sell", symbol := "X", strength := 1,
         reason := "Price too high", timestamp := 1000000 }] := by
    have hnst : nonStablecoinTokens [tokX] = [tokX] := by decide
    simp only [meanRevGenerateSignals, hnst, List.foldl_cons, List.foldl_nil,
      analyzeMR_sell_eval, appendActionable]
    simp
  constructor
  · refine c10_no_hold_in_generated_signals.1 ℚ [("major", 1/20)] [] 12 [tokX]
      (fun _ => some 106) (fun _ => [⟨100, 999900⟩]) 1000000 _ ?_
    rw [hmom]
    simp
  · refine c10_no_hold_in_generated_signals.2 [("major", 1/2)] 24 [tokX]
      (fun _ => some 110) (fun _ => mrPrior) 1000000 _ ?_
    rw [hmr]
    simp

/-- Claim C8: the mean-reversion analyzer yields absence (`none`, not a
hold) when the pruned window has fewer than 10 samples and when the
population standard deviation is exactly 0; otherwise it computes
`z = (current - mean)/std` and emits sell when `z` exceeds the category
z-threshold and buy when `z` is below its negation, with strength
`min(|z|/threshold, 1)`. -/
theorem c8_meanrev_branches (zThresholds : List (String × ℝ)) (lb : ℚ) (tok : TokenInfo)
    (hist0 : List (PriceEntry ℝ)) (cp : ℝ) (now : ℚ)
    (w : List (PriceEntry ℝ)) (zt mean std z : ℝ)
    (hcp : 0 < cp)
    (hw : w = pruneHistory lb now (hist0 ++ [⟨cp, now⟩]))
    (hzt : zt = getZScoreThreshold zThresholds tok.category)
    (hztpos : 0 ≤ zt)
    (hmean : mean = (w.map (fun e => e.price)).sum / ((w.map (fun e => e.price)).length : ℝ))
    (hstd : std = Real.sqrt
      (((w.map (fun e => e.price)).map (fun p => (p - mean) ^ 2)).sum /
        ((w.map (fun e => e.price)).length : ℝ)))
    (hz : z = (cp - mean) / std) :
    (w.length < 10 → analyzeMeanReversion zThresholds lb tok hist0 (some cp) now = none) ∧
    (std = 0 → analyzeMeanReversion zThresholds lb tok hist0 (some cp) now = none) ∧
    (10 ≤ w.length → std ≠ 0 → zt < z →
      analyzeMeanReversion zThresholds lb tok hist0 (some cp) now =
        some { action := "sell", symbol := tok.symbol, strength := min (|z| / zt) 1,
               reason := "Price too high", timestamp := now }) ∧
    (10 ≤ w.length → std ≠ 0 → z < -zt →
      analyzeMeanReversion zThresholds lb tok hist0 (some cp) now =
        some { action := "buy", symbol := tok.symbol, strength := min (|z| / zt) 1,
               reason := "Price too low", timestamp := now }) := by
  have hnotle : ¬ cp ≤ 0 := not_le.mpr hcp
  have key : analyzeMeanReversion zThresholds lb tok hist0 (some cp) now =
      (if w.length < 10 then none
       else if std = 0 then none
       else if zt < z then
        some { action := "sell", symbol := tok.symbol, strength := min (|z| / zt) 1,
               reason := "Price too high", timestamp := now }
       else if z < -zt then
        some { action := "buy", symbol := tok.symbol, strength := min (|z| / zt) 1,
               reason := "Price too low", timestamp := now }
       else
        some { action := "hold", symbol := tok.symbol, strength := 0,
               reason := "Price normal", timestamp := now }) := by
    simp only [analyzeMeanReversion, hnotle, if_false]
    rw [← hw, ← hzt, ← hmean, ← hstd, ← hz]
  refine ⟨fun h => by rw [key, if_pos h], fun h => ?_, fun hlen hstd0 hgt => ?_,
    fun hlen hstd0 hlt => ?_⟩
  · rw [key]
    by_cases hl : w.length < 10
    · rw [if_pos hl]
    · rw [if_neg hl, if_pos h]
  · rw [key, if_neg (by omega), if_neg hstd0, if_pos hgt]
  · have hnot : ¬ zt < z :=
      not_lt.mpr (le_of_lt (lt_of_lt_of_le hlt (le_trans (neg_nonpos_of_nonneg hztpos) hztpos)))
    rw [key, if_neg (by omega), if_neg hstd0, if_neg hnot, if_pos hlt]

/-- Witness for C8: a one-sample window yields absence, and the window
five at 90 / five at 110 (mean 100, standard deviation 10, z = 1)
against threshold 0.5 yields a sell of strength 1. -/
theorem c8_witness :
    analyzeMeanReversion [] 24 tokX [] (some 5) 0 = none ∧
    analyzeMeanReversion [("major", 1/2)] 24 tokX mrPrior (some 110) 1000000 =
      some { action := "sell", symbol := "X", strength := 1,
             reason := "Price too high", timestamp := 1000000 } := by
  have hsq : Real.sqrt 100 = 10 := by
    rw [show (100:ℝ) = 10 ^ 2 by norm_num, Real.sqrt_sq (by norm_num : (0:ℝ) ≤ 10)]
  have h1 := c8_meanrev_branches [] 24 tokX [] 5 0 [⟨5, 0⟩] 2 5 0 0
      (by norm_num)
      (by norm_num [pruneHistory, List.filter])
      (by norm_num [getZScoreThreshold, assocLookup, List.find?, tokX])
      (by norm_num)
      (by norm_num)
      (by norm_num [Real.sqrt_zero])
      (by norm_num)
  have h2 := c8_meanrev_branches [("major", 1/2)] 24 tokX mrPrior 110 1000000
      (mrPrior ++ [⟨110, 1000000⟩]) (1/2) 100 10 1
      (by norm_num)
      (by norm_num [pruneHistory, List.filter, mrPrior])
      (by norm_num [getZScoreThreshold, assocLookup, List.find?, tokX])
      (by norm_num)
      (by norm_num [mrPrior])
      (by norm_num [mrPrior, hsq])
      (by norm_num)
  refine ⟨h1.1 (by norm_num),
    (h2.2.2.1 (by norm_num [mrPrior]) (by norm_num) (by norm_num)).trans ?_⟩
  norm_num [abs, max_def, min_def, tokX]

/-- The trading client's price lookup returns `none` or a positive price,
never zero or a negative number. -/
theorem clientPrice_cases {R : Type} [LinearOrderedField R] (resp : Option R) :
    clientGetTokenPrice resp = none ∨
      ∃ p, 0 < p ∧ clientGetTokenPrice resp = some p := by
  cases resp with
  | none => exact Or.inl rfl
  | some raw =>
    by_cases h : raw ≤ 0
    · exact Or.inl (by simp [clientGetTokenPrice, h])
    · exact Or.inr ⟨raw, not_le.mp h, by simp [clientGetTokenPrice, h]⟩

/-- Updating the price cache with a `none`-or-positive price keeps it
well-formed. -/
theorem upsertCache_WF {R : Type} [LinearOrderedField R] (cache : List (CacheEntry R))
    (key : String) (price : Option R) (now : ℚ)
    (hc : cacheWF cache) (hp : price = none ∨ ∃ p, 0 < p ∧ price = some p) :
    cacheWF (upsertCache cache key price now) := by
  intro e he
  unfold upsertCache at he
  split_ifs at he with hfound
  · rcases List.mem_map.mp he with ⟨e2, he2, heq⟩
    by_cases hk : e2.key = key
    · rw [← heq, if_pos hk]
      exact hp
    · rw [← heq, if_neg hk]
      exact hc e2 he2
  · rcases List.mem_append.mp he with h | h
    · exact hc e h
    · rw [List.mem_singleton.mp h]
      exact hp

/-- `MarketDataProvider.get_token_price` started from a well-formed cache
returns `none` or a positive price, and leaves the cache well-formed. -/
theorem mdGetTokenPrice_sound {R : Type} [LinearOrderedField R]
    (cache : List (CacheEntry R)) (dur : ℚ) (key : String) (now : ℚ)
    (upstream : Option (Option R)) (hc : cacheWF cache) :
    ((mdGetTokenPrice cache dur key now upstream).1 = none ∨
      ∃ p, 0 < p ∧ (mdGetTokenPrice cache dur key now upstream).1 = some p) ∧
    cacheWF (mdGetTokenPrice cache dur key now upstream).2 := by
  simp only [mdGetTokenPrice]
  cases hfind : cache.find? (fun e => e.key = key) with
  | some e =>
    by_cases hfresh : now - e.timestamp < dur
    · simp only [hfresh, if_true]
      exact ⟨hc e (List.mem_of_find?_eq_some hfind), hc⟩
    · simp only [hfresh, if_false]
      cases upstream with
      | none => exact ⟨Or.inl rfl, hc⟩
      | some resp =>
        exact ⟨clientPrice_cases resp,
          upsertCache_WF cache key _ now hc (clientPrice_cases resp)⟩
  | none =>
    cases upstream with
    | none => exact ⟨Or.inl rfl, hc⟩
    | some resp =>
      exact ⟨clientPrice_cases resp,
        upsertCache_WF cache key _ now hc (clientPrice_cases resp)⟩

/-- Claim C5: a failed upstream call or a non-positive upstream value
propagates as `none` through `RecallTradingClient.get_token_price` and
`MarketDataProvider.get_token_price` (which, from a well-formed cache,
never returns zero or a negative price), and every consumer — the
momentum analyzer, the mean-reversion analyzer, and the rebalance trade
sizing — treats a non-positive price exactly like an absent one,
skipping the asset or trade. -/
theorem c5_nonpositive_price_is_absent :
    (∀ raw : ℝ, raw ≤ 0 → clientGetTokenPrice (some raw) = none) ∧
    clientGetTokenPrice (R := ℝ) none = none ∧
    (∀ (cache : List (CacheEntry ℝ)) (dur : ℚ) (key : String) (now : ℚ)
       (upstream : Option (Option ℝ)), cacheWF cache →
       ((mdGetTokenPrice cache dur key now upstream).1 = none ∨
         ∃ p, 0 < p ∧ (mdGetTokenPrice cache dur key now upstream).1 = some p) ∧
       cacheWF (mdGetTokenPrice cache dur key now upstream).2) ∧
    (∀ (cache : List (CacheEntry ℝ)) (dur : ℚ) (key : String) (now : ℚ) (raw : ℝ),
       cache.find? (fun e => e.key = key) = none → raw ≤ 0 →
       (mdGetTokenPrice cache dur key now (some (some raw))).1 = none ∧
       (mdGetTokenPrice cache dur key now none).1 = none) ∧
    (∀ (thresholds multipliers : List (String × ℝ)) (lb : ℚ) (tok : TokenInfo)
       (hist : List (PriceEntry ℝ)) (p : ℝ) (now : ℚ), p ≤ 0 →
       analyzeMomentum thresholds multipliers lb tok hist (some p) now = none ∧
       analyzeMomentum thresholds multipliers lb tok hist none now = none) ∧
    (∀ (zThresholds : List (String × ℝ)) (lb : ℚ) (tok : TokenInfo)
       (hist : List (PriceEntry ℝ)) (p : ℝ) (now : ℚ), p ≤ 0 →
       analyzeMeanReversion zThresholds lb tok hist (some p) now = none ∧
       analyzeMeanReversion zThresholds lb tok hist none now = none) ∧
    (∀ (minTrade usd p : ℚ), p ≤ 0 →
       sizeRebalanceTrade minTrade (some p) usd = none ∧
       sizeRebalanceTrade minTrade none usd = none) := by
  refine ⟨fun raw h => by simp [clientGetTokenPrice, h], rfl,
    fun cache dur key now upstream hc => mdGetTokenPrice_sound cache dur key now upstream hc,
    fun cache dur key now raw hfind hraw => ?_,
    fun thresholds multipliers lb tok hist p now hp => ?_,
    fun zThresholds lb tok hist p now hp => ?_,
    fun minTrade usd p hp => ?_⟩
  · simp only [mdGetTokenPrice, hfind]
    exact ⟨by simp [clientGetTokenPrice, hraw], trivial⟩
  · exact ⟨by simp only [analyzeMomentum]; rw [if_pos hp], rfl⟩
  · exact ⟨by simp only [analyzeMeanReversion]; rw [if_pos hp], rfl⟩
  · exact ⟨by simp only [sizeRebalanceTrade]; rw [if_pos hp], rfl⟩

/-- Witness for C5 at concrete inputs: a zero or negative price becomes
`none` at every stage and in every consumer. -/
theorem c5_witness :
    clientGetTokenPrice (R := ℝ) (some (-1)) = none ∧
    (mdGetTokenPrice ([] : List (CacheEntry ℝ)) 60 "k" 0 (some (some 0))).1 = none ∧
    analyzeMomentum ([] : List (String × ℝ)) [] 12 tokX [] (some 0) 0 = none ∧
    analyzeMeanReversion [] 24 tokX [] (some (-2)) 0 = none ∧
    sizeRebalanceTrade 10 (some 0) 50 = none := by
  refine ⟨c5_nonpositive_price_is_absent.1 (-1) (by norm_num),
    (c5_nonpositive_price_is_absent.2.2.2.1 [] 60 "k" 0 0 rfl le_rfl).1,
    (c5_nonpositive_price_is_absent.2.2.2.2.1 [] [] 12 tokX [] 0 0 le_rfl).1,
    (c5_nonpositive_price_is_absent.2.2.2.2.2.1 [] 24 tokX [] (-2) 0 (by norm_num)).1,
    (c5_nonpositive_price_is_absent.2.2.2.2.2.2 10 50 0 le_rfl).1⟩

end RecallAgent
